import Mathlib

/-!
Verification development for the guarded LLM-mediated command execution agent
(`services/mcp/cmd_exec.py` and `services/mcp/core.py`).

The Python helpers are embedded shallowly: pure string helpers become Lean
functions on `String`/`List Char`; `subprocess` calls, LLM calls, interactive
confirmation and the log-file sink become explicit oracles passed to the
control-loop model; Python exceptions become an explicit `PyErr` component of
the result.  Python `str.strip`/`str.lower`/`str.splitlines` are modelled for
the ASCII whitespace/newline characters actually relevant here.
-/

set_option maxRecDepth 4096

namespace CmdExec

/-! ## Basic list/string helpers -/

/-- Boolean prefix test on character lists. -/
def isPrefOf : List Char → List Char → Bool
  | [], _ => true
  | _ :: _, [] => false
  | a :: as, b :: bs => a == b && isPrefOf as bs

/-- Boolean substring test (`needle in hay` for Python strings). -/
def isSubOf (needle : List Char) : List Char → Bool
  | [] => isPrefOf needle []
  | c :: rest => isPrefOf needle (c :: rest) || isSubOf needle rest

/-- Python string slicing `s[:n]` by code points (shallow recursion, unlike
`String.take`). -/
def pyTake (s : String) (n : Nat) : String := ⟨s.toList.take n⟩

/-- `str.strip()` on a character list (ASCII whitespace at both ends). -/
def stripL (cs : List Char) : List Char :=
  ((cs.dropWhile Char.isWhitespace).reverse.dropWhile Char.isWhitespace).reverse

/-- Model of Python `str.strip()`. -/
def pyStrip (s : String) : String := ⟨stripL s.toList⟩

/-- `f" {cmd.lower()} "` : the lowercased command padded with one space on
each side, as used by the safety filters in `core.py`. -/
def paddedLower (cmd : String) : List Char :=
  (' ' :: cmd.toList.map Char.toLower) ++ [' ']

/-- `f" {cmd} "` without lowercasing, as used by the sudo-token test in
`cmd_exec.main` (lines 193 and 271, which are case-sensitive). -/
def paddedRaw (cmd : String) : List Char :=
  (' ' :: cmd.toList) ++ [' ']

/-! ## Safety filters (`services/mcp/core.py`) -/

/-- `DANGER_TOKENS` of `core.py` (the two fork-bomb entries are written with
`\x7b`/`\x7d` escapes for `{`/`}`). -/
def DANGER_TOKENS : List String :=
  [" rm -rf", " mkfs", " dd if=", " :()\x7b :|:& \x7d;:", " shutdown",
   " reboot", " poweroff", " init 0", " chown -R /", " :()\x7b:|:&\x7d;:"]

/-- The hard-denylist part of `is_dangerous`:
`any(tok in low for tok in DANGER_TOKENS)`. -/
def matchesDenylist (cmd : String) : Bool :=
  DANGER_TOKENS.any fun tok => isSubOf tok.toList (paddedLower cmd)

/-- `" sudo " in low` (on the lowercased padded command). -/
def hasSudoLow (cmd : String) : Bool :=
  isSubOf " sudo ".toList (paddedLower cmd)

/-- `core.is_dangerous` (lines 118-128). -/
def is_dangerous (cmd : String) : Bool :=
  if cmd = "" then true
  else hasSudoLow cmd || matchesDenylist cmd

/-- The banned-token list of `core.non_destructive_only`. -/
def BANNED_MUTATING : List String :=
  [" sudo ", " rm ", " mkfs", " dd ", " chmod ", " chown ", " chgrp ",
   " > ", " >> ", " tee ", " :> ", " truncate "]

/-- `core.non_destructive_only` (lines 130-145). -/
def non_destructive_only (cmd : String) : Bool :=
  if cmd = "" then false
  else if BANNED_MUTATING.any (fun tok => isSubOf tok.toList (paddedLower cmd)) then false
  else !(cmd.toList.contains '\n')

/-! ## Sanitizer (`cmd_exec.sanitize_command`, lines 97-106) -/

/-- Python exceptions that can escape the modelled code paths. -/
inductive PyErr where
  /-- `subprocess.TimeoutExpired` from `subprocess.run(..., timeout=...)`. -/
  | timeoutExpired
  /-- `ValueError`/`TypeError` from `float(...)` on a non-numeric value. -/
  | valueError
  /-- `IndexError` from `"".splitlines()[0]`. -/
  | indexError
deriving DecidableEq, Repr

/-- The normalization part of `sanitize_command` (lines 98-103): strip, strip
a leading `$`, take the first line, strip again.  `cmd.strip()` reduced to the
empty string makes `s.splitlines()[0]` raise `IndexError`. -/
def normalize_candidate (cmd : String) : Except PyErr (Option String) :=
  if cmd = "" then .ok none
  else
    let s := stripL cmd.toList
    let s := match s with
             | '$' :: rest => stripL rest
             | _ => s
    match s with
    | [] => .error .indexError
    | c :: rest =>
      .ok (some ⟨stripL ((c :: rest).takeWhile fun ch => !(ch = '\n' || ch = '\r'))⟩)

/-- `cmd_exec.sanitize_command` (lines 97-106): normalize, then reject
commands that are dangerous or not non-destructive. -/
def sanitize_command (cmd : String) : Except PyErr (Option String) :=
  match normalize_candidate cmd with
  | .error e => .error e
  | .ok none => .ok none
  | .ok (some s) =>
    .ok (if is_dangerous s || !(non_destructive_only s) then none else some s)

/-- `" sudo " in f" {cmd} "` (case-sensitive, `cmd_exec.main` lines 193/271). -/
def hasSudoTok (cmd : String) : Bool :=
  isSubOf " sudo ".toList (paddedRaw cmd)

/-! ## JSON values and `json.loads`

`extract_json_line` feeds a substring of the LLM response to `json.loads`.
We model JSON values with a small AST (numbers as `Rat`, covering both Python
ints and floats) and `json.loads` with a fuel-indexed recursive-descent
parser following RFC 8259 as Python's strict decoder does: no trailing data,
no trailing commas, no leading zeros, control characters rejected inside
strings.  `\u` escapes are mapped to the corresponding code point. -/

inductive JVal where
  | jnull
  | jbool (b : Bool)
  | jnum (q : Rat)
  | jstr (s : String)
  | jarr (xs : List JVal)
  | jobj (fs : List (String × JVal))
deriving BEq, Repr

/-- Python truthiness (`bool(v)`) of a decoded JSON value. -/
def pyTruthy : JVal → Bool
  | .jnull => false
  | .jbool b => b
  | .jnum q => decide (q ≠ 0)
  | .jstr s => decide (s ≠ "")
  | .jarr xs => !xs.isEmpty
  | .jobj fs => !fs.isEmpty

/-- `dict.get(k, d)`.  `json.loads` resolves duplicate keys last-wins, and the
parser below appends fields in input order, so lookup scans from the right.
`plan` is always a decoded object in `main`; other shapes return the default
(unreachable there). -/
def jget (p : JVal) (k : String) (d : JVal) : JVal :=
  match p with
  | .jobj fs =>
    match fs.reverse.find? (fun f => f.1 = k) with
    | some f => f.2
    | none => d
  | _ => d

/-- JSON insignificant whitespace (also what Python `float(str)` strips). -/
def skipWs : List Char → List Char
  | c :: cs => if c = ' ' || c = '\t' || c = '\n' || c = '\r' then skipWs cs else c :: cs
  | [] => []

/-- Digit run to a natural number. -/
def digitsToNat (ds : List Char) : Nat :=
  ds.foldl (fun a c => a * 10 + (c.toNat - 48)) 0

/-- One escape character of a JSON string (`\u` handled by the caller). -/
def escChar (c : Char) : Option Char :=
  if c = '"' then some '"'
  else if c = '\\' then some '\\'
  else if c = '/' then some '/'
  else if c = 'b' then some (Char.ofNat 8)
  else if c = 'f' then some (Char.ofNat 12)
  else if c = 'n' then some '\n'
  else if c = 'r' then some '\r'
  else if c = 't' then some '\t'
  else none

/-- Hex digit value. -/
def hexVal (c : Char) : Option Nat :=
  if '0' ≤ c ∧ c ≤ '9' then some (c.toNat - 48)
  else if 'a' ≤ c ∧ c ≤ 'f' then some (c.toNat - 87)
  else if 'A' ≤ c ∧ c ≤ 'F' then some (c.toNat - 55)
  else none

/-- Body of a JSON string after the opening quote; returns the decoded string
and the input after the closing quote. -/
def parseStrBody : List Char → Option (String × List Char)
  | [] => none
  | '"' :: rest => some ("", rest)
  | '\\' :: 'u' :: h1 :: h2 :: h3 :: h4 :: rest =>
    match hexVal h1, hexVal h2, hexVal h3, hexVal h4 with
    | some a, some b, some c, some d =>
      (parseStrBody rest).map fun p =>
        (⟨Char.ofNat (((a * 16 + b) * 16 + c) * 16 + d) :: p.1.toList⟩, p.2)
    | _, _, _, _ => none
  | '\\' :: e :: rest =>
    match escChar e with
    | some c => (parseStrBody rest).map fun p => (⟨c :: p.1.toList⟩, p.2)
    | none => none
  | c :: rest =>
    if c.toNat < 32 then none
    else (parseStrBody rest).map fun p => (⟨c :: p.1.toList⟩, p.2)

/-- Fraction part of a JSON number: digits after a `.` (else nothing). -/
def parseFracPart : List Char → Option (List Char × List Char)
  | '.' :: r =>
    let f := r.takeWhile Char.isDigit
    if f = [] then none else some (f, r.drop f.length)
  | cs => some ([], cs)

/-- Exponent part of a JSON number. -/
def parseExpPart : List Char → Option (Bool × List Char × List Char)
  | 'e' :: r =>
    let p := match r with
             | '+' :: r2 => (false, r2)
             | '-' :: r2 => (true, r2)
             | _ => (false, r)
    let d := p.2.takeWhile Char.isDigit
    if d = [] then none else some (p.1, d, p.2.drop d.length)
  | 'E' :: r =>
    let p := match r with
             | '+' :: r2 => (false, r2)
             | '-' :: r2 => (true, r2)
             | _ => (false, r)
    let d := p.2.takeWhile Char.isDigit
    if d = [] then none else some (p.1, d, p.2.drop d.length)
  | cs => some (false, [], cs)

/-- Assemble a rational from sign, integer digits, fraction digits and
exponent. -/
def ratOfParts (neg : Bool) (ip fr : List Char) (expNeg : Bool)
    (ed : List Char) : Rat :=
  let base : Rat :=
    ((digitsToNat ip * 10 ^ fr.length + digitsToNat fr : Nat) : Rat) /
      ((10 ^ fr.length : Nat) : Rat)
  let scaled : Rat :=
    if expNeg then base / ((10 ^ digitsToNat ed : Nat) : Rat)
    else base * ((10 ^ digitsToNat ed : Nat) : Rat)
  if neg then -scaled else scaled

/-- A JSON number (strict grammar: optional `-`, no leading zeros). -/
def parseNum (cs : List Char) : Option (JVal × List Char) :=
  let p := match cs with
           | '-' :: r => (true, r)
           | _ => (false, cs)
  let ip := p.2.takeWhile Char.isDigit
  if ip = [] then none
  else if ip.length > 1 ∧ ip.head? = some '0' then none
  else
    match parseFracPart (p.2.drop ip.length) with
    | none => none
    | some (fr, cs2) =>
      match parseExpPart cs2 with
      | none => none
      | some (en, ed, cs3) => some (.jnum (ratOfParts p.1 ip fr en ed), cs3)

mutual

/-- One JSON value (fuel-indexed recursive descent). -/
def parseVal : Nat → List Char → Option (JVal × List Char)
  | 0, _ => none
  | fuel + 1, cs =>
    match skipWs cs with
    | 't' :: 'r' :: 'u' :: 'e' :: rest => some (.jbool true, rest)
    | 'f' :: 'a' :: 'l' :: 's' :: 'e' :: rest => some (.jbool false, rest)
    | 'n' :: 'u' :: 'l' :: 'l' :: rest => some (.jnull, rest)
    | '"' :: rest => (parseStrBody rest).map fun p => (.jstr p.1, p.2)
    | '[' :: rest =>
      (match skipWs rest with
       | ']' :: r2 => some (.jarr [], r2)
       | r2 => parseElems fuel r2 [])
    | '\x7b' :: rest =>
      (match skipWs rest with
       | '\x7d' :: r2 => some (.jobj [], r2)
       | r2 => parseFields fuel r2 [])
    | c :: rest =>
      if c = '-' ∨ c.isDigit then parseNum (c :: rest) else none
    | [] => none

/-- Array elements after `[` (at least one element). -/
def parseElems (fuel : Nat) (cs : List Char) (acc : List JVal) :
    Option (JVal × List Char) :=
  match fuel with
  | 0 => none
  | fuel + 1 =>
    match parseVal fuel cs with
    | none => none
    | some (v, rest) =>
      match skipWs rest with
      | ',' :: r2 => parseElems fuel r2 (acc ++ [v])
      | ']' :: r2 => some (.jarr (acc ++ [v]), r2)
      | _ => none

/-- Object members after the opening brace (at least one member). -/
def parseFields (fuel : Nat) (cs : List Char) (acc : List (String × JVal)) :
    Option (JVal × List Char) :=
  match fuel with
  | 0 => none
  | fuel + 1 =>
    match skipWs cs with
    | '"' :: r1 =>
      match parseStrBody r1 with
      | none => none
      | some (k, r2) =>
        match skipWs r2 with
        | ':' :: r3 =>
          match parseVal fuel r3 with
          | none => none
          | some (v, r4) =>
            match skipWs r4 with
            | ',' :: r5 => parseFields fuel r5 (acc ++ [(k, v)])
            | '\x7d' :: r5 => some (.jobj (acc ++ [(k, v)]), r5)
            | _ => none
        | _ => none
    | _ => none

end

/-- `json.loads`: parse one value and require only whitespace after it. -/
def parseJson (s : String) : Option JVal :=
  let cs := s.toList
  match parseVal (cs.length + 1) cs with
  | some (v, rest) => if skipWs rest = [] then some v else none
  | none => none

/-! ## `extract_json_line` (`cmd_exec.py` lines 85-94)

`re.search(r"\x7b.*\x7d", text, flags=re.S)` matches from the *first* `{` of
the text to the *last* `}` (leftmost start, greedy `.*` across newlines). -/

/-- Drop everything before the first `{` (result is empty or starts with
`{`). -/
def dropToBrace (cs : List Char) : List Char :=
  cs.dropWhile fun c => !(c = '\x7b')

/-- Longest prefix ending in `}` (`none` when the list has no `}`). -/
def takeToLastClose : List Char → Option (List Char)
  | [] => none
  | c :: rest =>
    match takeToLastClose rest with
    | some t => some (c :: t)
    | none => if c = '\x7d' then some [c] else none

/-- The span matched by `re.search(r"\x7b.*\x7d", text, re.S)`: from the
first `{` to the last `}` of the text. -/
def greedyBraceSpan (text : String) : Option String :=
  match dropToBrace text.toList with
  | '\x7b' :: rest =>
    match takeToLastClose rest with
    | some t => some ⟨'\x7b' :: t⟩
    | none => none
  | _ => none

/-- `cmd_exec.extract_json_line`: empty text gives `None`; otherwise the
greedy brace span is located and handed to `json.loads`, any parse failure
giving `None`. -/
def extract_json_line (text : String) : Option JVal :=
  if text = "" then none
  else
    match greedyBraceSpan text with
    | none => none
    | some span => parseJson span

/-- Modelled from the spec: "locating the first balanced `\x7b...\x7d` span".
This definition follows the spec's words (depth-counting from the first `{`)
and exists only to compare the spec's description with the source's greedy
regex; the source has no such function.  Scanner depth is the current brace
nesting (≥ 1). -/
def balScan : Nat → List Char → Option (List Char)
  | _, [] => none
  | d, c :: rest =>
    if c = '\x7b' then (balScan (d + 1) rest).map (c :: ·)
    else if c = '\x7d' then
      if d = 1 then some [c]
      else (balScan (d - 1) rest).map (c :: ·)
    else (balScan d rest).map (c :: ·)

/-- Modelled from the spec: the first balanced `\x7b...\x7d` span of the
text. -/
def firstBalancedBraceSpan (text : String) : Option String :=
  match dropToBrace text.toList with
  | '\x7b' :: rest => (balScan 1 rest).map fun t => ⟨'\x7b' :: t⟩
  | _ => none

/-! ## Python `float()` and `str()` on decoded JSON values -/

/-- Python `float(str)`: optional surrounding whitespace and sign, then a
decimal literal (digits, optional fraction, optional exponent; at least one
digit).  `inf`/`nan`/underscores are not modelled; no verified property
exercises them. -/
def parseFloatStr (s : String) : Option Rat :=
  let cs := skipWs s.toList
  let p := match cs with
           | '-' :: r => (true, r)
           | '+' :: r => (false, r)
           | _ => (false, cs)
  let ip := p.2.takeWhile Char.isDigit
  let cs2 := p.2.drop ip.length
  match parseFracPart cs2 with
  | none => none
  | some (fr, cs3) =>
    if ip = [] ∧ fr = [] then none
    else
      match parseExpPart cs3 with
      | none => none
      | some (en, ed, cs4) =>
        if skipWs cs4 = [] then some (ratOfParts p.1 ip fr en ed) else none

/-- Python `float(v)` on a decoded JSON value: numbers and booleans convert,
strings are parsed, `None`/lists/dicts raise. -/
def pyFloat : JVal → Option Rat
  | .jnum q => some q
  | .jbool b => some (if b then 1 else 0)
  | .jstr s => parseFloatStr s
  | _ => none

/-- Python `str(v)` on a decoded JSON value.  Only string values reach this
function in the verified properties; the renderings of the other shapes are
nominal. -/
def pyStr : JVal → String
  | .jstr s => s
  | .jbool true => "True"
  | .jbool false => "False"
  | .jnull => "None"
  | .jnum q => toString q
  | .jarr _ => "[...]"
  | .jobj _ => "\x7b...\x7d"

/-! ## Executor and success classifier -/

/-- Outcome of one `subprocess.run(cmd, shell=True, ..., timeout=timeout)`
call, supplied by the execution oracle: either completion with exit code,
stdout and stderr, or expiry of the timeout. -/
inductive ExecBehavior where
  | done (rc : Int) (out : String) (err : String)
  | timeout
deriving Repr

/-- `cmd_exec.run_once` (lines 115-119): `subprocess.run` raises
`subprocess.TimeoutExpired` on timeout and `run_once` installs no handler, so
the exception propagates.  Elapsed time is not modelled (no property mentions
it). -/
def run_once : ExecBehavior → Except PyErr (Int × String × String)
  | .done rc out err => .ok (rc, out, err)
  | .timeout => .error .timeoutExpired

/-- `cmd_exec.is_effective_success` (lines 122-130).  The compiled
`success_pattern` is modelled by its match predicate on the stdout text. -/
def is_effective_success (rc : Int) (out : String) (require_output : Bool)
    (success_pattern : Option (String → Bool)) (min_bytes : Int) : Bool :=
  if rc ≠ 0 then false
  else if require_output && decide (((pyStrip out).length : Int) < max 0 min_bytes) then
    false
  else
    match success_pattern with
    | some p => p out
    | none => true

/-! ## Event logger (`core.log_event`, lines 31-39) -/

/-- One record handed to `log_event` by the loop (line 223-232 of
`cmd_exec.py`).  The `user`/`timestamp` fields added by `setdefault` come from
the environment and are outside the model. -/
structure LogEntry where
  kind : String
  goal : String
  cmd : String
  rc : Int
  stdout : String
  stderr : String
  cwd : String
  attempt : Nat
deriving DecidableEq, Repr

/-- What `log_event` produced: a written line, or only a stderr warning. -/
inductive LogOutcome where
  | written (e : LogEntry)
  | warned (msg : String)
deriving DecidableEq, Repr

/-- The body of `log_event`'s `try` block: the underlying file write either
appends the entry or raises (directory missing, permission error, ...).  The
sink oracle supplies the failure, if any, as the exception text. -/
def log_event_body (sinkErr : Option String) (entry : LogEntry) :
    Except String LogEntry :=
  match sinkErr with
  | none => .ok entry
  | some ex => .error ex

/-- `core.log_event`: the blanket `except Exception` turns any failure of the
body into a stderr warning; the function always returns normally (its result
type has no exception component). -/
def log_event (sinkErr : Option String) (entry : LogEntry) : LogOutcome :=
  match log_event_body sinkErr entry with
  | .ok e => .written e
  | .error ex => .warned ("[warn] log write failed: " ++ ex)

/-! ## Control loop (`cmd_exec.main`, lines 133-306)

The loop is modelled from the point where the initial candidate command is
fixed (recipe, `--cmd`, `$`-literal or LLM proposal).  External effects are
oracles indexed by the attempt number: `execO` (the shell), `planO` (the
retry-planner `ask_llm` call, `none` when it raises), `confirmO` (the n-th
`maybe_confirm` answer) and `sinkO` (the log-file write).  Prompt texts and
`history_snip` do not influence control flow through the oracles and are not
tracked; the final AI explanation (lines 290-304) is wrapped in
`try/except` in the source and cannot change any field of the result. -/

/-- The three values of `--sudo`. -/
inductive SudoPolicy where
  | allow
  | deny
  | ask
deriving DecidableEq, Repr

/-- Run configuration resolved from the CLI (`argparse`, lines 134-150). -/
structure Config where
  sudoPolicy : SudoPolicy
  maxAttempts : Int
  requireOutput : Bool
  successPattern : Option (String → Bool)
  minBytes : Int
  goal : String
  cwd : String

/-- Mutable state of `main`'s while-loop, plus the observation trace
(`execs`: commands handed to `run_once`; `logCalls`: entries handed to
`log_event`; `logWarns`: how many of those writes failed; `plannerCalls`:
retry-planner `ask_llm` calls; `confirmIdx`: `maybe_confirm` calls made). -/
structure LoopSt where
  cmdline : String
  attempts : Nat
  lastRc : Int
  lastOut : String
  lastErr : String
  execs : List String
  logCalls : List LogEntry
  logWarns : Nat
  plannerCalls : Nat
  confirmIdx : Nat
deriving Repr

/-- Result of one loop iteration: stop (with an uncaught exception when
`err ≠ none`) or continue with a new state. -/
inductive StepRes where
  | stop (st : LoopSt) (err : Option PyErr)
  | next (st : LoopSt)
deriving Repr

/-- `1` when the log write failed (counting stderr warnings). -/
def warnCount : LogOutcome → Nat
  | .written _ => 0
  | .warned _ => 1

/-- `bool(plan.get("retry", False))` (line 257). -/
def retryFlag (plan : JVal) : Bool :=
  pyTruthy (jget plan "retry" (.jbool false))

/-- `float(plan.get("wait_sec", 0) or 0)` (line 259): `none` means the
`float` call raised. -/
def waitSecComputed (plan : JVal) : Option Rat :=
  let v := jget plan "wait_sec" (.jnum 0)
  if pyTruthy v then pyFloat v else some 0

/-- `str(plan.get("next_cmd", "") or "")` followed by
`next_cmd_raw.strip() or cmdline` (lines 260 and 270). -/
def plannedNext (plan : JVal) (cur : String) : String :=
  let ncv := jget plan "next_cmd" (.jstr "")
  let raw := if pyTruthy ncv then pyStr ncv else ""
  if pyStrip raw = "" then cur else pyStrip raw

/-- State after `run_once` returned and the attempt was logged (lines
214-232): the attempt counter and command trace were already advanced, the
log entry is recorded and `last_rc/last_out/last_err` are updated (lines
237/241 both perform this assignment on the classified attempt). -/
def afterExec (cfg : Config) (sinkO : Nat → Option String) (st : LoopSt)
    (rc : Int) (out err : String) : LoopSt :=
  let attempts := st.attempts + 1
  let entry : LogEntry :=
    ⟨"exec", cfg.goal, st.cmdline, rc, pyTake out 500, pyTake err 300, cfg.cwd, attempts⟩
  { st with
    attempts := attempts,
    execs := st.execs ++ [st.cmdline],
    logCalls := st.logCalls ++ [entry],
    logWarns := st.logWarns + warnCount (log_event (sinkO attempts) entry),
    lastRc := rc, lastOut := out, lastErr := err }

/-- The retry-planning tail of one failed iteration (lines 243-287), applied
to the response text of the planner `ask_llm` call (`none` when it raised):
extract the JSON plan, stop on malformed/falsy plans or `retry=false`, crash
on a bad `wait_sec`, apply the sudo policy to the next command and re-gate
it. -/
def planPhase (cfg : Config) (confirmO : Nat → Bool) (resp : Option String)
    (st : LoopSt) : StepRes :=
  match resp with
  | none => .stop { st with plannerCalls := st.plannerCalls + 1 } none
  | some advice =>
    let st3 := { st with plannerCalls := st.plannerCalls + 1 }
    match extract_json_line advice with
    | none => .stop st3 none
    | some plan =>
      if pyTruthy plan = false then .stop st3 none
      else
        match waitSecComputed plan with
        | none => .stop st3 (some .valueError)
        | some _ =>
          if retryFlag plan = false then .stop st3 none
          else
            let next_cmd := plannedNext plan st3.cmdline
            let gate :=
              if hasSudoTok next_cmd then
                match cfg.sudoPolicy with
                | .deny => (st3, false)
                | .ask => ({ st3 with confirmIdx := st3.confirmIdx + 1 },
                           confirmO st3.confirmIdx)
                | .allow => (st3, true)
              else (st3, true)
            if gate.2 = false then .stop gate.1 none
            else
              match sanitize_command next_cmd with
              | .error e => .stop gate.1 (some e)
              | .ok none => .stop gate.1 none
              | .ok (some safe) => .next { gate.1 with cmdline := safe }

/-- One iteration of the while-loop (lines 213-287). -/
def loopStep (cfg : Config) (execO : Nat → String → ExecBehavior)
    (planO : Nat → Option String) (confirmO : Nat → Bool)
    (sinkO : Nat → Option String) (st : LoopSt) : StepRes :=
  let attempts := st.attempts + 1
  match run_once (execO attempts st.cmdline) with
  | .error e =>
    .stop { st with attempts := attempts, execs := st.execs ++ [st.cmdline] } (some e)
  | .ok (rc, out, err) =>
    let st2 := afterExec cfg sinkO st rc out err
    if is_effective_success rc out cfg.requireOutput cfg.successPattern cfg.minBytes then
      .stop st2 none
    else planPhase cfg confirmO (planO attempts) st2

/-- The while-loop, driven by fuel `max(0, max_attempts) - attempts`
(`attempts < max_attempts` tested at the top, `attempts += 1` inside). -/
def loopRun (cfg : Config) (execO : Nat → String → ExecBehavior)
    (planO : Nat → Option String) (confirmO : Nat → Bool)
    (sinkO : Nat → Option String) : Nat → LoopSt → LoopSt × Option PyErr
  | 0, st => (st, none)
  | fuel + 1, st =>
    match loopStep cfg execO planO confirmO sinkO st with
    | .stop st' e => (st', e)
    | .next st' => loopRun cfg execO planO confirmO sinkO fuel st'

/-- Observable result of a run of `main`: `exit` is the return value of
`main` (`none` when an uncaught exception `crash` terminated the process
instead), plus the observation trace. -/
structure RunOut where
  exit : Option Int
  crash : Option PyErr
  execs : List String
  logCalls : List LogEntry
  logWarns : Nat
  plannerCalls : Nat
deriving DecidableEq, Repr

/-- The result of all pre-execution blocks (`return 1` at lines 195, 198 and
203): exit code 1, no executions, no log entries, no planner calls. -/
def blockedOut : RunOut := ⟨some 1, none, [], [], 0, 0⟩

/-- The success classification of a loop state's last attempt (the condition
of lines 235 and 306). -/
def classifyB (cfg : Config) (st : LoopSt) : Bool :=
  is_effective_success st.lastRc st.lastOut cfg.requireOutput cfg.successPattern
    cfg.minBytes

/-- The part of `main` after the sudo-policy check: sanitize the initial
candidate (lines 200-203), run the loop from a fresh state (lines 205-287)
and derive the exit code from the final classification (line 306).
`confirmStart` is the number of `maybe_confirm` calls already made. -/
def gateAndRun (cfg : Config) (execO : Nat → String → ExecBehavior)
    (planO : Nat → Option String) (confirmO : Nat → Bool)
    (sinkO : Nat → Option String) (initial_cmd : String)
    (confirmStart : Nat) : RunOut :=
  match sanitize_command initial_cmd with
  | .error e => ⟨none, some e, [], [], 0, 0⟩
  | .ok none => blockedOut
  | .ok (some c) =>
    let st0 : LoopSt := ⟨c, 0, 1, "", "", [], [], 0, 0, confirmStart⟩
    let r := loopRun cfg execO planO confirmO sinkO cfg.maxAttempts.toNat st0
    match r.2 with
    | some e => ⟨none, some e, r.1.execs, r.1.logCalls, r.1.logWarns, r.1.plannerCalls⟩
    | none =>
      let code : Int := if classifyB cfg r.1 then 0 else 1
      ⟨some code, none, r.1.execs, r.1.logCalls, r.1.logWarns, r.1.plannerCalls⟩

/-- `cmd_exec.main` from the point where `initial_cmd` is fixed: sudo policy
check (lines 193-198), then `gateAndRun`. -/
def mainRun (cfg : Config) (execO : Nat → String → ExecBehavior)
    (planO : Nat → Option String) (confirmO : Nat → Bool)
    (sinkO : Nat → Option String) (initial_cmd : String) : RunOut :=
  if hasSudoTok initial_cmd then
    match cfg.sudoPolicy with
    | .deny => blockedOut
    | .ask =>
      if confirmO 0 then gateAndRun cfg execO planO confirmO sinkO initial_cmd 1
      else blockedOut
    | .allow => gateAndRun cfg execO planO confirmO sinkO initial_cmd 0
  else gateAndRun cfg execO planO confirmO sinkO initial_cmd 0

/-! ## Concrete fixtures used by witnesses and counterexamples -/

/-- Default CLI configuration: `--sudo ask --max-attempts 5
--require-output --min-bytes 1`, no success pattern. -/
def cfgAsk5 : Config := ⟨.ask, 5, true, none, 1, "goal", "/w"⟩

/-- Same defaults with `--sudo allow`. -/
def cfgAllow5 : Config := ⟨.allow, 5, true, none, 1, "goal", "/w"⟩

/-- Same defaults with `--sudo deny`. -/
def cfgDeny5 : Config := ⟨.deny, 5, true, none, 1, "goal", "/w"⟩

/-- Same defaults with `--sudo ask --max-attempts 3`. -/
def cfgAsk3 : Config := ⟨.ask, 3, true, none, 1, "goal", "/w"⟩

/-- Execution oracle: every command fails with exit code 1 and no output. -/
def eFailU : Nat → String → ExecBehavior := fun _ _ => .done 1 "" ""

/-- Execution oracle: every command succeeds with output `HELLO\n`. -/
def eOkU : Nat → String → ExecBehavior := fun _ _ => .done 0 "HELLO\n" ""

/-- Execution oracle: every command exceeds the timeout. -/
def eTimeU : Nat → String → ExecBehavior := fun _ _ => .timeout

/-- Planner oracle: `ask_llm` raises on every call. -/
def pNoneU : Nat → Option String := fun _ => none

/-- Planner oracle: always retry with the fixed next command `ls -la`. -/
def pRetryU : Nat → Option String :=
  fun _ => some "\x7b\"retry\": true, \"next_cmd\": \"ls -la\"\x7d"

/-- Planner oracle: valid JSON that lacks every required key and carries a
non-numeric `wait_sec`. -/
def pBadWaitU : Nat → Option String :=
  fun _ => some "\x7b\"wait_sec\": \"oops\"\x7d"

/-- Planner oracle: a refusal message containing no JSON object. -/
def pNotJsonU : Nat → Option String :=
  fun _ => some "I cannot produce a retry plan."

/-- Confirmation oracle: every `maybe_confirm` is declined. -/
def cFalseU : Nat → Bool := fun _ => false

/-- Confirmation oracle: every `maybe_confirm` is accepted. -/
def cTrueU : Nat → Bool := fun _ => true

/-- Log sink oracle: every write succeeds. -/
def sNoneU : Nat → Option String := fun _ => none

/-- Log sink oracle: every write raises `PermissionError`. -/
def sFailU : Nat → Option String := fun _ => some "Permission denied"

/-! ## C8 — success classification on empty stdout -/

/-- C8 (counterexample): the claim quantifies over every `min_bytes`, but with
`exit_code == 0`, `require_output == true`, whitespace-only stdout and
`min_bytes = 0` (the documented way to disable the byte check), the
classifier returns `true`, not `false`: `len("".strip()) < max(0, 0)` is
false and no pattern is configured. -/
theorem c8_min_bytes_zero_counterexample :
    is_effective_success 0 " " true none 0 = true := by
  rfl

/-- C8 (amended): for every attempt with `exit_code == 0`,
`require_output == true` and empty or whitespace-only stdout, the classifier
returns `false` for every `success_pattern` and every `min_bytes ≥ 1` (the
claim fails only for `min_bytes ≤ 0`, which disables the output check). -/
theorem c8_empty_stdout_not_success (pat : Option (String → Bool))
    (mb : Int) (out : String) (hmb : 1 ≤ mb) (hout : pyStrip out = "") :
    is_effective_success 0 out true pat mb = false := by
  have h0 : ((pyStrip out).length : Int) < max 0 mb := by
    rw [hout]
    simp only [String.length_empty, Nat.cast_zero]
    omega
  simp [is_effective_success, h0]

/-- C8 (witness): the amended theorem applied at `min_bytes = 1`, stdout
`" "`, no pattern. -/
theorem c8_empty_stdout_not_success_w :
    1 ≤ (1 : Int) ∧ pyStrip " " = "" ∧
      is_effective_success 0 " " true none 1 = false :=
  ⟨by norm_num, rfl, c8_empty_stdout_not_success none 1 " " (by norm_num) rfl⟩

/-! ## C2 — timeout handling -/

/-- C2: the claim says a timed-out execution yields a synthesized failed
attempt with a sentinel exit code instead of raising.  In the source,
`subprocess.run(..., timeout=...)` raises `subprocess.TimeoutExpired`,
`run_once` (lines 115-119) installs no handler, and neither does the loop
(line 216), so the exception escapes `main`: the modelled run crashes with
the propagated exception, no attempt is synthesized, logged or retried. -/
theorem c2_timeout_uncaught_crash :
    run_once .timeout = .error .timeoutExpired ∧
      mainRun cfgAsk5 eTimeU pNoneU cFalseU sNoneU "sleep 120" =
        ⟨none, some .timeoutExpired, ["sleep 120"], [], 0, 0⟩ :=
  ⟨rfl, rfl⟩

/-! ## C3 — sudo under policy `allow` -/

/-- C3: the claim says that under `--sudo allow` a denylist-clean sudo
command passes the Safety Gate and is executed.  In the source,
`is_dangerous` returns `True` for every command containing a `sudo` token
(core.py line 126-127), so `sanitize_command` rejects it and `main` returns 1
at line 203 even under `allow`: `sudo apt update` is never executed. -/
theorem c3_sudo_allow_still_blocked :
    is_dangerous "sudo apt update" = true ∧
      sanitize_command "sudo apt update" = .ok none ∧
      mainRun cfgAllow5 eOkU pNoneU cTrueU sNoneU "sudo apt update" = blockedOut :=
  ⟨rfl, rfl, rfl⟩

/-! ## C4 — sudo under policy `deny` -/

/-- C4 (counterexample): the claim says the Sanitizer strips a leading
`sudo ` under policy `deny` and returns the stripped command.
`sanitize_command` has no policy parameter and never strips `sudo`: on
`sudo apt update` it returns `None` (the command is classified dangerous),
not `apt update`, and the `deny` run exits 1 before any execution
(line 195). -/
theorem c4_no_sudo_strip_counterexample :
    normalize_candidate "sudo apt update" = .ok (some "sudo apt update") ∧
      sanitize_command "sudo apt update" ≠ .ok (some "apt update") ∧
      mainRun cfgDeny5 eOkU pNoneU cTrueU sNoneU "sudo apt update" = blockedOut := by
  refine ⟨rfl, ?_, rfl⟩
  rw [show sanitize_command "sudo apt update" = .ok none from rfl]
  simp

/-- C4 (amended): under sudo policy `deny`, a candidate command containing a
`sudo` token makes the run fail outright with exit code 1 before gating,
execution or logging; no sudo-stripping occurs anywhere. -/
theorem c4_deny_rejects_sudo_outright (cfg : Config)
    (eO : Nat → String → ExecBehavior) (pO : Nat → Option String)
    (cO : Nat → Bool) (sO : Nat → Option String) (cmd : String)
    (hp : cfg.sudoPolicy = .deny) (hs : hasSudoTok cmd = true) :
    mainRun cfg eO pO cO sO cmd = blockedOut := by
  unfold mainRun
  rw [hs, hp]
  rfl

/-- C4 (witness): the amended theorem applied to `sudo apt update` under
`cfgDeny5`. -/
theorem c4_deny_rejects_sudo_outright_w :
    cfgDeny5.sudoPolicy = .deny ∧ hasSudoTok "sudo apt update" = true ∧
      mainRun cfgDeny5 eFailU pNoneU cFalseU sNoneU "sudo apt update" = blockedOut :=
  ⟨rfl, rfl,
    c4_deny_rejects_sudo_outright cfgDeny5 eFailU pNoneU cFalseU sNoneU
      "sudo apt update" rfl rfl⟩

/-! ## C5 — sudo under policy `ask`, confirmation declined -/

/-- C5 (counterexample): the claim says a declined confirmation triggers a
second Proposer call whose result re-enters the Gate, so the run "does not
simply terminate on decline".  In the source a decline returns 1 immediately
(lines 196-198): the modelled run ends with exit code 1, zero executions,
zero log entries and zero planner calls — no further proposal of any kind. -/
theorem c5_decline_terminates_counterexample :
    mainRun cfgAsk5 eOkU pNoneU cFalseU sNoneU "sudo apt update" = blockedOut :=
  rfl

/-- C5 (amended): under sudo policy `ask`, declining the confirmation for a
sudo-bearing initial candidate terminates the run at once with exit code 1,
with no execution, no log entry and no further Proposer or Planner call. -/
theorem c5_ask_decline_terminates (cfg : Config)
    (eO : Nat → String → ExecBehavior) (pO : Nat → Option String)
    (cO : Nat → Bool) (sO : Nat → Option String) (cmd : String)
    (hp : cfg.sudoPolicy = .ask) (hs : hasSudoTok cmd = true)
    (hc : cO 0 = false) :
    mainRun cfg eO pO cO sO cmd = blockedOut := by
  unfold mainRun
  rw [hs, hp, hc]
  simp

/-- C5 (witness): the amended theorem applied to `sudo apt update` under
`cfgAsk5` with an always-declining confirmation oracle. -/
theorem c5_ask_decline_terminates_w :
    cfgAsk5.sudoPolicy = .ask ∧ hasSudoTok "sudo apt update" = true ∧
      cFalseU 0 = false ∧
      mainRun cfgAsk5 eFailU pNoneU cFalseU sNoneU "sudo apt update" = blockedOut :=
  ⟨rfl, rfl, rfl,
    c5_ask_decline_terminates cfgAsk5 eFailU pNoneU cFalseU sNoneU
      "sudo apt update" rfl rfl rfl⟩

/-! ## C1 — hard-denylist absoluteness -/

/-- C1: for every candidate command whose normalized form matches a
hard-denylist signature, and under every sudo policy (and either confirmation
answer), the run is blocked: `sanitize_command` returns `None`, `main`
returns 1 before the loop (line 203), the Executor is never invoked and no
log entry is written. -/
theorem c1_denylist_always_blocked (cfg : Config)
    (eO : Nat → String → ExecBehavior) (pO : Nat → Option String)
    (cO : Nat → Bool) (sO : Nat → Option String) (cmd s : String)
    (hn : normalize_candidate cmd = .ok (some s))
    (hd : matchesDenylist s = true) :
    mainRun cfg eO pO cO sO cmd = blockedOut := by
  have hdang : is_dangerous s = true := by
    unfold is_dangerous
    by_cases h : s = ""
    · simp [h]
    · simp [h, hd]
  have hsan : sanitize_command cmd = .ok none := by
    unfold sanitize_command
    rw [hn]
    simp [hdang]
  cases hst : hasSudoTok cmd <;> cases hpol : cfg.sudoPolicy <;>
    simp [mainRun, gateAndRun, hsan, hst, hpol]

/-- C1 (witness): `rm -rf /` (a denylist match) under the default `ask`
policy with a succeeding executor: the run is blocked with no execution and
no log entry. -/
theorem c1_denylist_always_blocked_w :
    normalize_candidate "rm -rf /" = .ok (some "rm -rf /") ∧
      matchesDenylist "rm -rf /" = true ∧
      mainRun cfgAsk5 eOkU pNoneU cTrueU sNoneU "rm -rf /" = blockedOut :=
  ⟨rfl, rfl,
    c1_denylist_always_blocked cfgAsk5 eOkU pNoneU cTrueU sNoneU
      "rm -rf /" "rm -rf /" rfl rfl⟩

/-! ## C9 — JSON extraction span -/

/-- Character lists without an opening brace. -/
def noOpenBrace (cs : List Char) : Bool := cs.all fun c => !(c = '\x7b')

/-- Character lists without a closing brace. -/
def noCloseBrace (cs : List Char) : Bool := cs.all fun c => !(c = '\x7d')

/-- `dropToBrace` skips a brace-free prefix. -/
theorem dropToBrace_append (pre rest : List Char)
    (h : noOpenBrace pre = true) :
    dropToBrace (pre ++ '\x7b' :: rest) = '\x7b' :: rest := by
  induction pre with
  | nil => simp [dropToBrace, List.dropWhile_cons]
  | cons c l ih =>
    simp only [noOpenBrace, List.all_cons, Bool.and_eq_true, Bool.not_eq_true'] at h
    simp only [noOpenBrace] at ih
    simpa [dropToBrace, List.cons_append, List.dropWhile_cons, h.1] using ih h.2

/-- `takeToLastClose` fails on a list without `}`. -/
theorem takeToLastClose_none (cs : List Char) (h : noCloseBrace cs = true) :
    takeToLastClose cs = none := by
  induction cs with
  | nil => rfl
  | cons c l ih =>
    simp only [noCloseBrace, List.all_cons, Bool.and_eq_true, Bool.not_eq_true'] at h
    have hc : ¬ c = '\x7d' := by simpa using h.1
    simp only [noCloseBrace] at ih
    simp [takeToLastClose, ih h.2, hc]

/-- When nothing after the final `}` is a `}`, `takeToLastClose` stops
exactly there. -/
theorem takeToLastClose_last (core post : List Char)
    (h : noCloseBrace post = true) :
    takeToLastClose (core ++ '\x7d' :: post) = some (core ++ ['\x7d']) := by
  induction core with
  | nil => simp [takeToLastClose, takeToLastClose_none post h]
  | cons c l ih => simp [takeToLastClose, ih]

/-- The balanced scan of a brace-free interior closes at the first `}`. -/
theorem balScan_flat (core post : List Char)
    (h1 : noOpenBrace core = true) (h2 : noCloseBrace core = true) :
    balScan 1 (core ++ '\x7d' :: post) = some (core ++ ['\x7d']) := by
  induction core with
  | nil => simp [balScan]
  | cons c l ih =>
    simp only [noOpenBrace, noCloseBrace, List.all_cons, Bool.and_eq_true,
      Bool.not_eq_true'] at h1 h2
    have hc1 : ¬ c = '\x7b' := by simpa using h1.1
    have hc2 : ¬ c = '\x7d' := by simpa using h2.1
    simp only [noOpenBrace, noCloseBrace] at ih
    simp [balScan, hc1, hc2, ih h1.2 h2.2]

/-- C9 (counterexample): the claim says that whenever the first balanced
brace span is a valid JSON object, the decision is parsed from exactly that
span even if further text or brace spans follow.  The source uses the greedy
`re.search(r"\x7b.*\x7d", text, re.S)`, which spans from the first `\x7b` to
the *last* `\x7d`: on a response whose first balanced span is valid JSON but
is followed by another brace span, the greedy span is not valid JSON and
`extract_json_line` returns `None` instead of the first object's parse. -/
theorem c9_greedy_span_counterexample :
    firstBalancedBraceSpan "\x7b\"retry\": true\x7d and \x7b\"ok\": false\x7d" =
        some "\x7b\"retry\": true\x7d" ∧
      parseJson "\x7b\"retry\": true\x7d" = some (.jobj [("retry", .jbool true)]) ∧
      extract_json_line "\x7b\"retry\": true\x7d and \x7b\"ok\": false\x7d" = none :=
  ⟨rfl, rfl, rfl⟩

/-- C9 (amended): the decision is parsed from the greedy span running from
the first `\x7b` to the last `\x7d` of the text.  This coincides with the
first balanced span exactly when no later `\x7d` follows it; in particular,
for any text consisting of a brace-free prefix, one brace-free-interior
`\x7b...\x7d` span and a suffix containing no `\x7d`, the first balanced span
is that span and `extract_json_line` parses exactly it. -/
theorem c9_single_span_extraction (pre core post : List Char)
    (hpre : noOpenBrace pre = true) (hco : noOpenBrace core = true)
    (hcc : noCloseBrace core = true) (hpost : noCloseBrace post = true) :
    firstBalancedBraceSpan ⟨pre ++ '\x7b' :: (core ++ '\x7d' :: post)⟩ =
        some ⟨'\x7b' :: (core ++ ['\x7d'])⟩ ∧
      extract_json_line ⟨pre ++ '\x7b' :: (core ++ '\x7d' :: post)⟩ =
        parseJson ⟨'\x7b' :: (core ++ ['\x7d'])⟩ := by
  have htl : (⟨pre ++ '\x7b' :: (core ++ '\x7d' :: post)⟩ : String).toList =
      pre ++ '\x7b' :: (core ++ '\x7d' :: post) := rfl
  have hne : (⟨pre ++ '\x7b' :: (core ++ '\x7d' :: post)⟩ : String) ≠ "" := by
    intro h
    have h2 := congrArg String.data h
    simp at h2
  have hg : greedyBraceSpan (⟨pre ++ '\x7b' :: (core ++ '\x7d' :: post)⟩ : String) =
      some ⟨'\x7b' :: (core ++ ['\x7d'])⟩ := by
    unfold greedyBraceSpan
    rw [htl, dropToBrace_append pre _ hpre]
    show (match takeToLastClose (core ++ '\x7d' :: post) with
          | some t => some (⟨'\x7b' :: t⟩ : String)
          | none => none) = _
    rw [takeToLastClose_last core post hpost]
  constructor
  · unfold firstBalancedBraceSpan
    rw [htl, dropToBrace_append pre _ hpre]
    show (balScan 1 (core ++ '\x7d' :: post)).map
        (fun t => (⟨'\x7b' :: t⟩ : String)) = _
    rw [balScan_flat core post hco hcc]
    rfl
  · unfold extract_json_line
    rw [if_neg hne, hg]

/-- C9 (witness): the amended theorem applied to
`" x \x7b\"retry\": true\x7d done"`. -/
theorem c9_single_span_extraction_w :
    noOpenBrace " x ".toList = true ∧
      noOpenBrace "\"retry\": true".toList = true ∧
      noCloseBrace "\"retry\": true".toList = true ∧
      noCloseBrace " done".toList = true ∧
      extract_json_line ⟨" x ".toList ++ '\x7b' :: ("\"retry\": true".toList ++ '\x7d' :: " done".toList)⟩ =
        parseJson ⟨'\x7b' :: ("\"retry\": true".toList ++ ['\x7d'])⟩ :=
  ⟨rfl, rfl, rfl, rfl,
    (c9_single_span_extraction " x ".toList "\"retry\": true".toList
      " done".toList rfl rfl rfl rfl).2⟩

/-! ## C7 — malformed retry-planner responses -/

/-- Execution outcomes that complete but fail the success classification. -/
def ExecFails (cfg : Config) : ExecBehavior → Prop
  | .done rc out _ =>
    is_effective_success rc out cfg.requireOutput cfg.successPattern cfg.minBytes = false
  | .timeout => False

/-- Retry-planner responses that `main` treats as "stop retrying": the
`ask_llm` call raised (caught at lines 248-250), the response contains no
parsable JSON object, the decoded object is falsy (an empty object), or the
object decodes with a falsy/absent `retry` while its `wait_sec` conversion
succeeds. -/
def MalformedOrNoRetry (resp : Option String) : Prop :=
  resp = none ∨
  (∃ t, resp = some t ∧ extract_json_line t = none) ∨
  (∃ t plan, resp = some t ∧ extract_json_line t = some plan ∧
    pyTruthy plan = false) ∨
  (∃ t plan, resp = some t ∧ extract_json_line t = some plan ∧
    pyTruthy plan = true ∧ (waitSecComputed plan).isSome = true ∧
    retryFlag plan = false)

/-- On a malformed or retry-declining response, `planPhase` stops with no
exception, changing only the planner-call count. -/
theorem planPhase_malformed (cfg : Config) (cO : Nat → Bool)
    (resp : Option String) (st : LoopSt) (hp : MalformedOrNoRetry resp) :
    planPhase cfg cO resp st =
      .stop { st with plannerCalls := st.plannerCalls + 1 } none := by
  rcases hp with hp1 | ⟨t, hp1, hp2⟩ | ⟨t, plan, hp1, hp2, hp3⟩ |
    ⟨t, plan, hp1, hp2, hp3, hp4, hp5⟩
  · rw [hp1]
    rfl
  · rw [hp1]
    simp [planPhase, hp2]
  · rw [hp1]
    simp [planPhase, hp2, hp3]
  · rw [hp1]
    obtain ⟨q, hq⟩ := Option.isSome_iff_exists.mp hp4
    simp [planPhase, hp2, hp3, hq, hp5]

/-- C7: as long as fuel remains, an attempt that fails classification
followed by a malformed retry-planner response (no JSON object, falsy JSON,
or JSON lacking a truthy `retry` key whose `wait_sec` converts) terminates
the loop at the current attempt count with no exception: exactly one more
execution, one more planner call, and a failed final classification (so
`main` returns exit code 1 at line 306).  This holds only when `wait_sec`
converts — see the counterexample for the `float()` crash the claim's
blanket "never crashes" misses. -/
theorem c7_malformed_response_stops_loop (cfg : Config)
    (eO : Nat → String → ExecBehavior) (pO : Nat → Option String)
    (cO : Nat → Bool) (sO : Nat → Option String) (fuel : Nat) (st : LoopSt)
    (hf : ExecFails cfg (eO (st.attempts + 1) st.cmdline))
    (hp : MalformedOrNoRetry (pO (st.attempts + 1))) :
    ∃ st', loopRun cfg eO pO cO sO (fuel + 1) st = (st', none) ∧
      st'.execs = st.execs ++ [st.cmdline] ∧
      st'.attempts = st.attempts + 1 ∧
      st'.plannerCalls = st.plannerCalls + 1 ∧
      classifyB cfg st' = false := by
  obtain ⟨rc, out, err, hb, hcl⟩ :
      ∃ rc out err, eO (st.attempts + 1) st.cmdline = .done rc out err ∧
        is_effective_success rc out cfg.requireOutput cfg.successPattern
          cfg.minBytes = false := by
    cases hb : eO (st.attempts + 1) st.cmdline with
    | timeout => rw [hb] at hf; exact hf.elim
    | done rc out err => rw [hb] at hf; exact ⟨rc, out, err, rfl, hf⟩
  have hstep : loopStep cfg eO pO cO sO st =
      .stop { afterExec cfg sO st rc out err with
              plannerCalls := (afterExec cfg sO st rc out err).plannerCalls + 1 }
        none := by
    simp only [loopStep, run_once, hb, hcl, Bool.false_eq_true, if_false]
    exact planPhase_malformed cfg cO _ _ hp
  refine ⟨{ afterExec cfg sO st rc out err with
            plannerCalls := (afterExec cfg sO st rc out err).plannerCalls + 1 },
    ?_, ?_, ?_, ?_, ?_⟩
  · simp only [loopRun, hstep]
  · simp [afterExec]
  · simp [afterExec]
  · simp [afterExec]
  · simp [classifyB, afterExec, hcl]

set_option maxRecDepth 4096 in
/-- C7 (witness): with one attempt of fuel left, a failing `ls -la` followed
by a planner refusal containing no JSON stops the loop at attempt 1 with no
exception. -/
theorem c7_malformed_response_stops_loop_w :
    ExecFails cfgAsk3 (eFailU 1 "ls -la") ∧
      MalformedOrNoRetry (pNotJsonU 1) ∧
      ∃ st', loopRun cfgAsk3 eFailU pNotJsonU cFalseU sNoneU 1
          ⟨"ls -la", 0, 1, "", "", [], [], 0, 0, 0⟩ = (st', none) ∧
        st'.execs = [] ++ ["ls -la"] ∧ st'.attempts = 0 + 1 ∧
        st'.plannerCalls = 0 + 1 ∧ classifyB cfgAsk3 st' = false :=
  ⟨rfl, Or.inr (Or.inl ⟨"I cannot produce a retry plan.", rfl, rfl⟩),
    c7_malformed_response_stops_loop cfgAsk3 eFailU pNotJsonU cFalseU sNoneU 0
      ⟨"ls -la", 0, 1, "", "", [], [], 0, 0, 0⟩ rfl
      (Or.inr (Or.inl ⟨"I cannot produce a retry plan.", rfl, rfl⟩))⟩

/-- C7 (counterexample): the claim says the run never crashes on a response
that is JSON lacking the required keys.  On the valid-JSON response
`\x7b"wait_sec": "oops"\x7d` — which lacks every required key —
`float(plan.get("wait_sec", 0) or 0)` at line 259 raises an uncaught
`ValueError` and the modelled run crashes after one attempt instead of
degrading to `retry=false`. -/
theorem c7_bad_wait_sec_crash_counterexample :
    mainRun cfgAsk3 eFailU pBadWaitU cFalseU sNoneU "ls -la" =
      ⟨none, some .valueError, ["ls -la"],
        [⟨"exec", "goal", "ls -la", 1, "", "", "/w", 1⟩], 0, 1⟩ :=
  rfl

/-! ## C6 — bounded retries -/

/-- The state carried by a step result. -/
def stepSt : StepRes → LoopSt
  | .stop st _ => st
  | .next st => st

/-- Every branch of `planPhase` preserves the execution trace. -/
theorem planPhase_execs (cfg : Config) (cO : Nat → Bool) (resp : Option String)
    (st : LoopSt) : (stepSt (planPhase cfg cO resp st)).execs = st.execs := by
  simp only [planPhase]
  repeat' split
  all_goals rfl

/-- Every iteration of the loop appends exactly the current command to the
execution trace, whether it stops or continues. -/
theorem loopStep_execs (cfg : Config) (eO : Nat → String → ExecBehavior)
    (pO : Nat → Option String) (cO : Nat → Bool) (sO : Nat → Option String)
    (st : LoopSt) :
    (stepSt (loopStep cfg eO pO cO sO st)).execs = st.execs ++ [st.cmdline] := by
  simp only [loopStep]
  split
  · rfl
  · split
    · rfl
    · rw [planPhase_execs]
      rfl

/-- The loop performs at most `fuel` further executions. -/
theorem loopRun_execs_le (cfg : Config) (eO : Nat → String → ExecBehavior)
    (pO : Nat → Option String) (cO : Nat → Bool) (sO : Nat → Option String) :
    ∀ (fuel : Nat) (st : LoopSt),
      ((loopRun cfg eO pO cO sO fuel st).1).execs.length ≤ st.execs.length + fuel := by
  intro fuel
  induction fuel with
  | zero => intro st; simp [loopRun]
  | succ n ih =>
    intro st
    have hx := loopStep_execs cfg eO pO cO sO st
    cases h : loopStep cfg eO pO cO sO st with
    | stop st' e =>
      rw [h] at hx
      simp only [stepSt] at hx
      simp [loopRun, h, hx]
    | next st' =>
      rw [h] at hx
      simp only [stepSt] at hx
      have hthis := ih st'
      simp only [loopRun, h]
      rw [hx, List.length_append] at hthis
      simp only [List.length_cons, List.length_nil] at hthis
      omega

/-- Retry-planner responses that make the loop continue: a decoded truthy
JSON object with truthy `retry`, a convertible `wait_sec`, and whose chosen
next command (line 270: the stripped `next_cmd` when non-blank, else the
current command `cur`) carries no sudo token and passes `sanitize_command`
again. -/
def PlannerRetryOK (resp : Option String) (cur : String) : Prop :=
  ∃ t plan safe, resp = some t ∧ extract_json_line t = some plan ∧
    pyTruthy plan = true ∧ retryFlag plan = true ∧
    (waitSecComputed plan).isSome = true ∧
    hasSudoTok (plannedNext plan cur) = false ∧
    sanitize_command (plannedNext plan cur) = .ok (some safe)

/-- On a retry-approving response whose next command passes the gate,
`planPhase` continues with that command. -/
theorem planPhase_retry (cfg : Config) (cO : Nat → Bool) (resp : Option String)
    (st : LoopSt) (hp : PlannerRetryOK resp st.cmdline) :
    ∃ safe, planPhase cfg cO resp st =
      .next { st with plannerCalls := st.plannerCalls + 1, cmdline := safe } := by
  obtain ⟨t, plan, safe, h1, h2, h3, h4, h5, h6, h7⟩ := hp
  obtain ⟨q, hq⟩ := Option.isSome_iff_exists.mp h5
  refine ⟨safe, ?_⟩
  rw [h1]
  simp only [planPhase, h2, h3, hq, h4, h6, h7, Bool.true_eq_false, if_false,
    Bool.false_eq_true]

/-- A failing execution followed by a retry-approving response makes the
loop continue: one more execution, last attempt still classified failed. -/
theorem loopStep_retry (cfg : Config) (eO : Nat → String → ExecBehavior)
    (pO : Nat → Option String) (cO : Nat → Bool) (sO : Nat → Option String)
    (st : LoopSt)
    (hf : ExecFails cfg (eO (st.attempts + 1) st.cmdline))
    (hp : PlannerRetryOK (pO (st.attempts + 1)) st.cmdline) :
    ∃ st', loopStep cfg eO pO cO sO st = .next st' ∧
      st'.execs = st.execs ++ [st.cmdline] ∧
      st'.attempts = st.attempts + 1 ∧
      classifyB cfg st' = false := by
  obtain ⟨rc, out, err, hb, hcl⟩ :
      ∃ rc out err, eO (st.attempts + 1) st.cmdline = .done rc out err ∧
        is_effective_success rc out cfg.requireOutput cfg.successPattern
          cfg.minBytes = false := by
    cases hb : eO (st.attempts + 1) st.cmdline with
    | timeout => rw [hb] at hf; exact hf.elim
    | done rc out err => rw [hb] at hf; exact ⟨rc, out, err, rfl, hf⟩
  have hp' : PlannerRetryOK (pO (st.attempts + 1))
      (afterExec cfg sO st rc out err).cmdline := hp
  obtain ⟨safe, hpp⟩ :=
    planPhase_retry cfg cO (pO (st.attempts + 1)) (afterExec cfg sO st rc out err) hp'
  refine ⟨{ afterExec cfg sO st rc out err with
            plannerCalls := (afterExec cfg sO st rc out err).plannerCalls + 1,
            cmdline := safe }, ?_, ?_, ?_, ?_⟩
  · simp only [loopStep, run_once, hb, hcl, Bool.false_eq_true, if_false]
    exact hpp
  · simp [afterExec]
  · simp [afterExec]
  · simp [classifyB, afterExec, hcl]

/-- When every execution fails classification and every planner response
retries with a gated command, the loop consumes all its fuel, one execution
per unit, with no exception and a failed final classification. -/
theorem loopRun_retry_exhausts (cfg : Config)
    (eO : Nat → String → ExecBehavior) (pO : Nat → Option String)
    (cO : Nat → Bool) (sO : Nat → Option String)
    (hf : ∀ k s, ExecFails cfg (eO k s))
    (hp : ∀ k cur, PlannerRetryOK (pO k) cur) :
    ∀ (fuel : Nat) (st : LoopSt), classifyB cfg st = false →
      (loopRun cfg eO pO cO sO fuel st).2 = none ∧
      ((loopRun cfg eO pO cO sO fuel st).1).execs.length = st.execs.length + fuel ∧
      classifyB cfg (loopRun cfg eO pO cO sO fuel st).1 = false := by
  intro fuel
  induction fuel with
  | zero => intro st h; exact ⟨rfl, by simp [loopRun], by simpa [loopRun]⟩
  | succ n ih =>
    intro st h
    obtain ⟨st', hstep, hexe, hatt, hcl⟩ :=
      loopStep_retry cfg eO pO cO sO st (hf _ _) (hp _ _)
    obtain ⟨i1, i2, i3⟩ := ih st' hcl
    simp only [loopRun, hstep]
    refine ⟨i1, ?_, i3⟩
    rw [i2, hexe, List.length_append]
    simp only [List.length_cons, List.length_nil]
    omega

/-- C6: in any run, the execution count never exceeds `max(0, max_attempts)`
(first conjunct); and whenever the initial candidate passes the gate, every
execution fails the success classification and the Retry Planner always
answers `retry=true` with a command that re-passes the gate, the run performs
exactly `max(0, max_attempts)` executions, does not crash, and exits 1
(second conjunct). -/
theorem c6_bounded_attempts (cfg : Config)
    (eO : Nat → String → ExecBehavior) (pO : Nat → Option String)
    (cO : Nat → Bool) (sO : Nat → Option String) (cmd : String) :
    (mainRun cfg eO pO cO sO cmd).execs.length ≤ cfg.maxAttempts.toNat ∧
    (∀ c : String, hasSudoTok cmd = false → sanitize_command cmd = .ok (some c) →
      (∀ k s, ExecFails cfg (eO k s)) →
      (∀ k cur, PlannerRetryOK (pO k) cur) →
      (mainRun cfg eO pO cO sO cmd).execs.length = cfg.maxAttempts.toNat ∧
      (mainRun cfg eO pO cO sO cmd).crash = none ∧
      (mainRun cfg eO pO cO sO cmd).exit = some 1) := by
  constructor
  · have hgate : ∀ k, (gateAndRun cfg eO pO cO sO cmd k).execs.length ≤
        cfg.maxAttempts.toNat := by
      intro k
      unfold gateAndRun
      rcases hsan : sanitize_command cmd with e | oc
      · simp
      · rcases oc with _ | c
        · simp [blockedOut]
        · have hb := loopRun_execs_le cfg eO pO cO sO cfg.maxAttempts.toNat
            ⟨c, 0, 1, "", "", [], [], 0, 0, k⟩
          simp only [List.length_nil, Nat.zero_add] at hb
          rcases hr : (loopRun cfg eO pO cO sO cfg.maxAttempts.toNat
              ⟨c, 0, 1, "", "", [], [], 0, 0, k⟩).2 with _ | e <;>
            simp [hr, hb]
    unfold mainRun
    cases hst : hasSudoTok cmd <;> cases hpol : cfg.sudoPolicy <;>
      simp [hst, hpol, blockedOut, hgate]
    cases hc : cO 0 <;> simp [blockedOut, hgate]
  · intro c hst hsan hf hp
    have hcl0 : classifyB cfg (⟨c, 0, 1, "", "", [], [], 0, 0, 0⟩ : LoopSt) = false := by
      simp [classifyB, is_effective_success]
    obtain ⟨i1, i2, i3⟩ := loopRun_retry_exhausts cfg eO pO cO sO hf hp
      cfg.maxAttempts.toNat ⟨c, 0, 1, "", "", [], [], 0, 0, 0⟩ hcl0
    have hmain : mainRun cfg eO pO cO sO cmd = gateAndRun cfg eO pO cO sO cmd 0 := by
      simp [mainRun, hst]
    rw [hmain]
    unfold gateAndRun
    rw [hsan]
    simp [i1, i2, i3]

set_option maxRecDepth 8192 in
/-- C6 (witness): `max-attempts = 3`, an always-failing `ls -la`, and a
planner that always retries with `next_cmd = "ls -la"`: the run performs
exactly 3 executions and exits 1. -/
theorem c6_bounded_attempts_w :
    hasSudoTok "ls -la" = false ∧
      sanitize_command "ls -la" = .ok (some "ls -la") ∧
      (mainRun cfgAsk3 eFailU pRetryU cFalseU sNoneU "ls -la").execs.length =
          cfgAsk3.maxAttempts.toNat ∧
      (mainRun cfgAsk3 eFailU pRetryU cFalseU sNoneU "ls -la").crash = none ∧
      (mainRun cfgAsk3 eFailU pRetryU cFalseU sNoneU "ls -la").exit = some 1 :=
  ⟨rfl, rfl,
    (c6_bounded_attempts cfgAsk3 eFailU pRetryU cFalseU sNoneU "ls -la").2
      "ls -la" rfl rfl (fun _ _ => rfl)
      (fun _ _cur =>
        ⟨"\x7b\"retry\": true, \"next_cmd\": \"ls -la\"\x7d",
          .jobj [("retry", .jbool true), ("next_cmd", .jstr "ls -la")],
          "ls -la", rfl, rfl, rfl, rfl, rfl, rfl, rfl⟩)⟩

/-! ## C10 — the event logger never influences the run -/

/-- Overwrite the warning counter (the only state component fed by the log
sink). -/
def setWarns (w : Nat) (st : LoopSt) : LoopSt := { st with logWarns := w }

/-- Map a function over the state of a step result. -/
def mapStep (f : LoopSt → LoopSt) : StepRes → StepRes
  | .stop st e => .stop (f st) e
  | .next st => .next (f st)

/-- Forget the warning counter of a step result. -/
def stripStep : StepRes → StepRes := mapStep (setWarns 0)

/-- `planPhase` neither reads nor writes the warning counter. -/
theorem planPhase_warns (cfg : Config) (cO : Nat → Bool) (resp : Option String)
    (st : LoopSt) (w : Nat) :
    planPhase cfg cO resp (setWarns w st) =
      mapStep (setWarns w) (planPhase cfg cO resp st) := by
  simp only [planPhase, setWarns]
  repeat' split
  all_goals first
  | rfl
  | simp_all

/-- Two states differing only in the warning counter step through
`planPhase` to results differing only in the warning counter. -/
theorem planPhase_strip (cfg : Config) (cO : Nat → Bool) (resp : Option String)
    (a b : LoopSt) (h : setWarns 0 a = setWarns 0 b) :
    stripStep (planPhase cfg cO resp a) = stripStep (planPhase cfg cO resp b) := by
  rw [show planPhase cfg cO resp a
        = mapStep (setWarns a.logWarns) (planPhase cfg cO resp (setWarns 0 a)) from
      planPhase_warns cfg cO resp (setWarns 0 a) a.logWarns,
    show planPhase cfg cO resp b
        = mapStep (setWarns b.logWarns) (planPhase cfg cO resp (setWarns 0 b)) from
      planPhase_warns cfg cO resp (setWarns 0 b) b.logWarns,
    h]
  cases planPhase cfg cO resp (setWarns 0 b) <;> rfl

/-- The post-execution states of two runs differing only in the log sink and
the warning counter agree after forgetting the warning counter. -/
theorem afterExec_strip (cfg : Config) (s1 s2 : Nat → Option String)
    (st : LoopSt) (w1 w2 : Nat) (rc : Int) (out err : String) :
    setWarns 0 (afterExec cfg s1 (setWarns w1 st) rc out err) =
      setWarns 0 (afterExec cfg s2 (setWarns w2 st) rc out err) := rfl

/-- One loop iteration under two different log sinks: identical up to the
warning counter. -/
theorem loopStep_sink (cfg : Config) (eO : Nat → String → ExecBehavior)
    (pO : Nat → Option String) (cO : Nat → Bool)
    (s1 s2 : Nat → Option String) (st : LoopSt) (w1 w2 : Nat) :
    stripStep (loopStep cfg eO pO cO s1 (setWarns w1 st)) =
      stripStep (loopStep cfg eO pO cO s2 (setWarns w2 st)) := by
  simp only [loopStep, setWarns]
  cases hb : eO (st.attempts + 1) st.cmdline with
  | timeout => rfl
  | done rc out err =>
    simp only [run_once, hb]
    by_cases hcl : is_effective_success rc out cfg.requireOutput
        cfg.successPattern cfg.minBytes = true
    · simp only [hcl, if_true]
      rfl
    · simp only [hcl, if_false]
      exact planPhase_strip cfg cO _ _ _
        (afterExec_strip cfg s1 s2 st w1 w2 rc out err)

/-- The whole loop under two different log sinks: same exception behavior
and same final state up to the warning counter. -/
theorem loopRun_sink (cfg : Config) (eO : Nat → String → ExecBehavior)
    (pO : Nat → Option String) (cO : Nat → Bool)
    (s1 s2 : Nat → Option String) :
    ∀ (fuel : Nat) (st : LoopSt) (w1 w2 : Nat),
      setWarns 0 (loopRun cfg eO pO cO s1 fuel (setWarns w1 st)).1 =
        setWarns 0 (loopRun cfg eO pO cO s2 fuel (setWarns w2 st)).1 ∧
      (loopRun cfg eO pO cO s1 fuel (setWarns w1 st)).2 =
        (loopRun cfg eO pO cO s2 fuel (setWarns w2 st)).2 := by
  intro fuel
  induction fuel with
  | zero => intro st w1 w2; exact ⟨rfl, rfl⟩
  | succ n ih =>
    intro st w1 w2
    have hs := loopStep_sink cfg eO pO cO s1 s2 st w1 w2
    cases h1 : loopStep cfg eO pO cO s1 (setWarns w1 st) with
    | stop a ea =>
      cases h2 : loopStep cfg eO pO cO s2 (setWarns w2 st) with
      | stop b eb =>
        rw [h1, h2] at hs
        simp only [stripStep, mapStep] at hs
        injection hs with hab he
        simp only [loopRun, h1, h2]
        exact ⟨hab, he⟩
      | next b =>
        rw [h1, h2] at hs
        simp [stripStep, mapStep] at hs
    | next a =>
      cases h2 : loopStep cfg eO pO cO s2 (setWarns w2 st) with
      | stop b eb =>
        rw [h1, h2] at hs
        simp [stripStep, mapStep] at hs
      | next b =>
        rw [h1, h2] at hs
        simp only [stripStep, mapStep] at hs
        injection hs with hab
        simp only [loopRun, h1, h2]
        rw [show a = setWarns a.logWarns (setWarns 0 a) from rfl, hab,
          show b = setWarns b.logWarns (setWarns 0 b) from rfl]
        exact ih (setWarns 0 b) a.logWarns b.logWarns

/-- C10: `log_event` never raises — a failing underlying write produces only
a stderr warning (first conjunct) — and consequently the run's exit code,
crash status, executed commands, logged entries and planner calls are
identical under any two log sinks, e.g. one that always succeeds and one
that always fails (remaining conjuncts). -/
theorem c10_log_sink_never_changes_run (cfg : Config)
    (eO : Nat → String → ExecBehavior) (pO : Nat → Option String)
    (cO : Nat → Bool) (s1 s2 : Nat → Option String) (cmd : String) :
    (∀ entry ex, log_event (some ex) entry =
        .warned ("[warn] log write failed: " ++ ex)) ∧
    (mainRun cfg eO pO cO s1 cmd).exit = (mainRun cfg eO pO cO s2 cmd).exit ∧
    (mainRun cfg eO pO cO s1 cmd).crash = (mainRun cfg eO pO cO s2 cmd).crash ∧
    (mainRun cfg eO pO cO s1 cmd).execs = (mainRun cfg eO pO cO s2 cmd).execs ∧
    (mainRun cfg eO pO cO s1 cmd).logCalls = (mainRun cfg eO pO cO s2 cmd).logCalls ∧
    (mainRun cfg eO pO cO s1 cmd).plannerCalls =
      (mainRun cfg eO pO cO s2 cmd).plannerCalls := by
  refine ⟨fun entry ex => rfl, ?_⟩
  have hg : ∀ k : Nat,
      (gateAndRun cfg eO pO cO s1 cmd k).exit = (gateAndRun cfg eO pO cO s2 cmd k).exit ∧
      (gateAndRun cfg eO pO cO s1 cmd k).crash = (gateAndRun cfg eO pO cO s2 cmd k).crash ∧
      (gateAndRun cfg eO pO cO s1 cmd k).execs = (gateAndRun cfg eO pO cO s2 cmd k).execs ∧
      (gateAndRun cfg eO pO cO s1 cmd k).logCalls =
        (gateAndRun cfg eO pO cO s2 cmd k).logCalls ∧
      (gateAndRun cfg eO pO cO s1 cmd k).plannerCalls =
        (gateAndRun cfg eO pO cO s2 cmd k).plannerCalls := by
    intro k
    rcases hsan : sanitize_command cmd with e | oc
    · simp [gateAndRun, hsan]
    · rcases oc with _ | c
      · simp [gateAndRun, hsan]
      · obtain ⟨hst, herr⟩ :
            setWarns 0 (loopRun cfg eO pO cO s1 cfg.maxAttempts.toNat
                ⟨c, 0, 1, "", "", [], [], 0, 0, k⟩).1 =
              setWarns 0 (loopRun cfg eO pO cO s2 cfg.maxAttempts.toNat
                ⟨c, 0, 1, "", "", [], [], 0, 0, k⟩).1 ∧
            (loopRun cfg eO pO cO s1 cfg.maxAttempts.toNat
                ⟨c, 0, 1, "", "", [], [], 0, 0, k⟩).2 =
              (loopRun cfg eO pO cO s2 cfg.maxAttempts.toNat
                ⟨c, 0, 1, "", "", [], [], 0, 0, k⟩).2 :=
          loopRun_sink cfg eO pO cO s1 s2 cfg.maxAttempts.toNat
            ⟨c, 0, 1, "", "", [], [], 0, 0, k⟩ 0 0
        have hexecs := congrArg LoopSt.execs hst
        have hlogs := congrArg LoopSt.logCalls hst
        have hplan := congrArg LoopSt.plannerCalls hst
        have hrc := congrArg LoopSt.lastRc hst
        have hout := congrArg LoopSt.lastOut hst
        simp only [setWarns] at hexecs hlogs hplan hrc hout
        simp only [gateAndRun, hsan]
        rcases hr2 : (loopRun cfg eO pO cO s2 cfg.maxAttempts.toNat
            ⟨c, 0, 1, "", "", [], [], 0, 0, k⟩).2 with _ | e <;>
          rw [herr, hr2] <;>
          simp [classifyB, hrc, hout, hexecs, hlogs, hplan]
  unfold mainRun
  cases hst : hasSudoTok cmd
  · exact hg 0
  · cases hpol : cfg.sudoPolicy
    · exact hg 0
    · exact ⟨rfl, rfl, rfl, rfl, rfl⟩
    · cases hc : cO 0
      · exact ⟨rfl, rfl, rfl, rfl, rfl⟩
      · exact hg 1

end CmdExec
